import Mathlib

/-!
Verification of the passlabs backend core services against their
natural-language specification.

The development shallowly embeds the two core services of the repository:

* `services/defi_llama_service.py` — the stablecoin price cache with TTL and
  stale-on-error fallback, including the response normalizer
  (`_parse_stablecoins` and its `_extract_*` helpers).
* `services/payment_service.py` — the payment lifecycle tracker, together with
  the part of `services/blockchain_service.py` it consults
  (`get_transaction_status`).

Conventions of the embedding:

* Python floats are modelled as rationals (`ℚ`); timestamps obtained from
  `time.time()` are rationals, ISO timestamp strings from
  `datetime.utcnow().isoformat()` are opaque `String` parameters.
* Python dictionaries used as records become Lean structures; the two
  in-memory maps of `PaymentService` become association lists with the
  insert-or-update-in-place semantics of Python dicts.
* I/O performed by a collaborator (the web3 gateway, the HTTP client, the
  uuid generator, the clock) is passed in as an explicit oracle argument, so
  every operation is a pure function from the old state and the oracle data
  to the result and the new state.
* A Python function that raises is modelled with `Except String`; the string
  carries the message of the `ValueError`/`Exception` raised by the source.
-/

namespace Passlabs

/-! ## A model of the JSON values handled by the price normalizer

`DeFiLlamaService._parse_stablecoins` receives the decoded JSON body of the
upstream response and probes it dynamically, so the embedding needs a generic
JSON value type.  Python `bool` is a subtype of `int`, hence
`isinstance(x, (int, float))` also accepts booleans; `asNum` mirrors that. -/

inductive JValue where
  | null : JValue
  | bool : Bool → JValue
  | num : ℚ → JValue
  | str : String → JValue
  | arr : List JValue → JValue
  | obj : List (String × JValue) → JValue

/-- Key lookup on a JSON object (`item.get(key)` / `key in item`); returns
`none` when the value is not an object or the key is absent. -/
def jget : JValue → String → Option JValue
  | JValue.obj kvs, k => (kvs.find? (fun kv => kv.1 = k)).map (fun kv => kv.2)
  | _, _ => none

/-- `isinstance(x, (int, float))` plus `float(x)`: numbers are themselves,
Python booleans count as the ints 1 and 0, everything else is not numeric. -/
def asNum : JValue → Option ℚ
  | JValue.num q => some q
  | JValue.bool b => some (if b then 1 else 0)
  | _ => none

/-- Python truthiness of a JSON value. -/
def jtruthy : JValue → Bool
  | JValue.null => false
  | JValue.bool b => b
  | JValue.num q => q ≠ 0
  | JValue.str s => s ≠ ""
  | JValue.arr xs => ¬ xs.isEmpty
  | JValue.obj kvs => ¬ kvs.isEmpty

/-- Python hashability: lists and dicts are unhashable (`set(...)` raises
`TypeError` on them), the scalar values are hashable. -/
def jhashable : JValue → Bool
  | JValue.arr _ => false
  | JValue.obj _ => false
  | _ => true

/-- Python `==` on the hashable scalars: `True == 1` and `1 == 1.0` hold, so
booleans compare numerically with numbers. -/
def pyEqAtom (a b : JValue) : Bool :=
  match a, b with
  | JValue.null, JValue.null => true
  | JValue.str s, JValue.str t => s = t
  | x, y =>
    match asNum x, asNum y with
    | some p, some q => p = q
    | _, _ => false

/-- `list(set(l))` for a list of hashable scalars.  Python's set iteration
order is unspecified; the embedding keeps the first occurrence of each
element, which is adequate because no claim depends on the order. -/
def pyDedup (l : List JValue) : List JValue :=
  l.foldl (fun acc x => if acc.any (pyEqAtom x) then acc else acc ++ [x]) []

/-- Python `str.upper()` (character-wise ASCII uppercasing). -/
def pyUpper (s : String) : String :=
  String.mk (s.data.map Char.toUpper)

/-- `pat` is a prefix of the character list. -/
def leadsWith : List Char → List Char → Bool
  | [], _ => true
  | _ :: _, [] => false
  | a :: pat, b :: rest => a = b && leadsWith pat rest

/-- Python's substring test `pat in s`, on character lists. -/
def containsSub (pat : List Char) : List Char → Bool
  | [] => leadsWith pat []
  | c :: cs => leadsWith pat (c :: cs) || containsSub pat cs

/-! ## `DeFiLlamaService._format_number` -/

/-- Round a rational to the nearest integer, ties to even, matching the
rounding used by Python's fixed-point float formatting. -/
def roundHalfEven (q : ℚ) : ℤ :=
  let f : ℤ := ⌊q⌋
  let r : ℚ := q - f
  if r < 0.5 then f
  else if (0.5:ℚ) < r then f + 1
  else if f % 2 = 0 then f else f + 1

/-- Python `f"{q:.1f}"` for a non-negative rational. -/
def fmtFixed1 (q : ℚ) : String :=
  let n : ℤ := roundHalfEven (q * 10)
  toString (n / 10) ++ "." ++ toString (n % 10)

/-- Python `f"{q:.2f}"` for a non-negative rational. -/
def fmtFixed2 (q : ℚ) : String :=
  let n : ℤ := roundHalfEven (q * 100)
  let cents : ℤ := n % 100
  toString (n / 100) ++ "." ++ toString (cents / 10) ++ toString (cents % 10)

/-- `DeFiLlamaService._format_number`: human-scaled formatting of a market
cap (`$<n>B` / `$<n>M` / `$<n>K` / `$<n>.nn`). -/
def format_number (number : ℚ) : String :=
  if 1000000000 ≤ number then "$" ++ fmtFixed1 (number / 1000000000) ++ "B"
  else if 1000000 ≤ number then "$" ++ fmtFixed1 (number / 1000000) ++ "M"
  else if 1000 ≤ number then "$" ++ fmtFixed1 (number / 1000) ++ "K"
  else "$" ++ fmtFixed2 number

/-! ## The normalizer: `_extract_price`, `_extract_market_cap`,
`_extract_change_24h`, `_extract_chains`, `_parse_stablecoins` -/

/-- One probe of `_extract_price`: accept the value only when it is numeric
and strictly positive. -/
def posNumProbe (v : Option JValue) : Option ℚ :=
  match v with
  | some w =>
    match asNum w with
    | some p => if 0 < p then some p else none
    | none => none
  | none => none

/-- Scan `item["chainBalances"].values()` for the first chain entry that is a
dict with a positive numeric price (structure 2 of `_extract_price`). -/
def chainBalancesPrice : List (String × JValue) → Option ℚ
  | [] => none
  | (_, chainData) :: rest =>
    match chainData with
    | JValue.obj kvs =>
      match posNumProbe (jget (JValue.obj kvs) "price") with
      | some p => some p
      | none => chainBalancesPrice rest
    | _ => chainBalancesPrice rest

/-- Structures 3 and 4 of `_extract_price`: the `marketData.priceUSD` probe
followed by the `price_usd` probe.  A `marketData` value on which Python's
`"priceUSD" in item["marketData"]` raises `TypeError` (a number, boolean or
null) aborts the whole extraction with `None` through the function's
`except` clause; when `in` succeeds on a string or list, the subsequent
subscript `item["marketData"]["priceUSD"]` raises, with the same effect. -/
def extractPriceTail (item : JValue) : Option ℚ :=
  match jget item "marketData" with
  | some (JValue.obj kvs) =>
    match jget (JValue.obj kvs) "priceUSD" with
    | some v =>
      match posNumProbe (some v) with
      | some p => some p
      | none => posNumProbe (jget item "price_usd")
    | none => posNumProbe (jget item "price_usd")
  | some (JValue.str s) =>
    if containsSub ("priceUSD".data) s.data then none
    else posNumProbe (jget item "price_usd")
  | some (JValue.arr xs) =>
    if xs.any (fun x => pyEqAtom x (JValue.str "priceUSD")) then none
    else posNumProbe (jget item "price_usd")
  | some _ => none
  | none => posNumProbe (jget item "price_usd")

/-- `DeFiLlamaService._extract_price`: probe, in order, a direct `price`
field, the per-chain `chainBalances` prices, `marketData.priceUSD`, and the
snake-case `price_usd`; only a strictly positive number is accepted.  A
non-dict `chainBalances` value makes Python's `.values()` raise, which the
function's `except` turns into `None`. -/
def extract_price (item : JValue) : Option ℚ :=
  match posNumProbe (jget item "price") with
  | some p => some p
  | none =>
    match jget item "chainBalances" with
    | some (JValue.obj kvs) =>
      match chainBalancesPrice kvs with
      | some p => some p
      | none => extractPriceTail item
    | some _ => none
    | none => extractPriceTail item

/-- Sum of the numeric `mcap` fields across `item["chainBalances"].values()`
(only chain entries that are dicts containing the key contribute). -/
def chainBalancesMcapSum (kvs : List (String × JValue)) : ℚ :=
  kvs.foldl
    (fun acc kv =>
      match kv.2 with
      | JValue.obj inner =>
        match jget (JValue.obj inner) "mcap" with
        | some v =>
          match asNum v with
          | some m => acc + m
          | none => acc
        | none => acc
      | _ => acc)
    0

/-- One probe of `_extract_market_cap`: format the value when it is numeric
and strictly positive. -/
def mcapProbe (v : Option JValue) : Option String :=
  match v with
  | some w =>
    match asNum w with
    | some m => if 0 < m then some (format_number m) else none
    | none => none
  | none => none

/-- `DeFiLlamaService._extract_market_cap`: probe `marketCap`, then
`market_cap`, then the sum of `mcap` over `chainBalances`; a non-dict
`chainBalances` raises inside the `for`, turned into `None` by the
function's `except`. -/
def extract_market_cap (item : JValue) : Option String :=
  match mcapProbe (jget item "marketCap") with
  | some s => some s
  | none =>
    match mcapProbe (jget item "market_cap") with
    | some s => some s
    | none =>
      match jget item "chainBalances" with
      | some (JValue.obj kvs) =>
        let total := chainBalancesMcapSum kvs
        if 0 < total then some (format_number total) else none
      | some _ => none
      | none => none

/-- One probe of `_extract_change_24h`: accept any numeric value. -/
def changeProbe (v : Option JValue) : Option ℚ :=
  match v with
  | some w => asNum w
  | none => none

/-- `DeFiLlamaService._extract_change_24h`: probe `change24h`, `change_24h`,
`priceChange24h`; the function always returns a number (`0.0` when no probe
matches, also from its `except` clause). -/
def extract_change_24h (item : JValue) : ℚ :=
  match changeProbe (jget item "change24h") with
  | some c => c
  | none =>
    match changeProbe (jget item "change_24h") with
    | some c => c
    | none =>
      match changeProbe (jget item "priceChange24h") with
      | some c => c
      | none => 0

/-- `DeFiLlamaService._extract_chains`: collect the `chains` list (when it is
a list) and the keys of `chainBalances` (when it is a dict), deduplicate via
`set`, and fall back to `["scroll"]` when the collection is empty or contains
an unhashable element (Python `set` raises `TypeError` on those, caught by
the function's `except`). -/
def extract_chains (item : JValue) : List JValue :=
  let fromChains : List JValue :=
    match jget item "chains" with
    | some (JValue.arr xs) => xs
    | _ => []
  let fromBalances : List JValue :=
    match jget item "chainBalances" with
    | some (JValue.obj kvs) => kvs.map (fun kv => JValue.str kv.1)
    | _ => []
  let chains := fromChains ++ fromBalances
  if chains.isEmpty then [JValue.str "scroll"]
  else if chains.all jhashable then pyDedup chains
  else [JValue.str "scroll"]

/-- The tracked symbol set, `settings.STABLECOINS`. -/
def targetStablecoins : List String := ["USDC", "USDT", "DAI"]

/-- One normalized quote, the dict appended by `_parse_stablecoins`.  `name`
stays a raw JSON value because the source stores `item.get("name", "")`
unconverted (`name or symbol`). -/
structure Stablecoin where
  name : JValue
  symbol : String
  price_usd : ℚ
  market_cap : String
  change_24h : ℚ
  chains : List JValue
  last_updated : String

/-- `symbol = item.get("symbol", "").upper()`: `none` when the item is not a
dict or its `symbol` value is not a string (both raise inside the per-item
`try`, so the entry is skipped); an absent key yields `""`. -/
def symbolOf : JValue → Option String
  | JValue.obj kvs =>
    match jget (JValue.obj kvs) "symbol" with
    | none => some ""
    | some (JValue.str s) => some (pyUpper s)
    | some _ => none
  | _ => none

/-- The body of the per-item loop of `_parse_stablecoins`: skip the entry
when its symbol is untracked or no positive price is found, otherwise build
the quote dict.  `fetchTime` is the `datetime.utcnow()` stamp. -/
def parseStablecoinItem (fetchTime : String) (item : JValue) : Option Stablecoin :=
  match symbolOf item with
  | none => none
  | some symbol =>
    if symbol ∈ targetStablecoins then
      let name := (jget item "name").getD (JValue.str "")
      let price_usd := extract_price item
      let market_cap := extract_market_cap item
      let change_24h := extract_change_24h item
      let chains := extract_chains item
      match price_usd with
      | some p =>
        if 0 < p then
          some { name := if jtruthy name then name else JValue.str symbol
                 symbol := symbol
                 price_usd := p
                 market_cap := market_cap.getD "N/A"
                 change_24h := change_24h
                 chains := chains
                 last_updated := fetchTime }
        else none
      | none => none
    else none

/-- `DeFiLlamaService._parse_stablecoins`: accept either a dict with a
`stablecoins` list or a bare list; anything else (including a dict whose
`stablecoins` value is not a list) yields `[]`. -/
def parse_stablecoins (fetchTime : String) (data : JValue) : List Stablecoin :=
  match data with
  | JValue.obj kvs =>
    match jget (JValue.obj kvs) "stablecoins" with
    | none => []
    | some (JValue.arr xs) => xs.filterMap (parseStablecoinItem fetchTime)
    | some _ => []
  | JValue.arr xs => xs.filterMap (parseStablecoinItem fetchTime)
  | _ => []

/-! ## The price cache: `get_stablecoin_prices`, `_is_cache_valid`,
`_update_cache` -/

/-- The value stored in `self.cache` when it is non-empty: the parsed quote
list under `"stablecoins"` plus the `"last_updated"` ISO stamp. -/
structure CacheEntry where
  stablecoins : List Stablecoin
  last_updated : String

/-- The mutable state of `DeFiLlamaService`: `self.cache` (`none` models the
empty dict) and `self.cache_timestamp` (a `time.time()` value). -/
structure CacheState where
  cache : Option CacheEntry
  cache_timestamp : Option ℚ

/-- The state after `__init__` or `clear_cache`. -/
def initialCacheState : CacheState := { cache := none, cache_timestamp := none }

/-- `DeFiLlamaService._is_cache_valid`: the cache dict is non-empty, the
timestamp is set, and the elapsed time is strictly below the TTL. -/
def is_cache_valid (s : CacheState) (now ttl : ℚ) : Bool :=
  match s.cache, s.cache_timestamp with
  | none, _ => false
  | some _, none => false
  | some _, some ts => now - ts < ttl

/-- `DeFiLlamaService._update_cache`: replace the snapshot atomically. -/
def update_cache (sc : List Stablecoin) (nowIso : String) (now : ℚ) : CacheState :=
  { cache := some { stablecoins := sc, last_updated := nowIso }
    cache_timestamp := some now }

/-- The observable outcome of one `get_stablecoin_prices` call: the returned
list, the state afterwards, and whether `_fetch_from_api` was invoked. -/
structure PricesOutcome where
  result : List Stablecoin
  state : CacheState
  fetchAttempted : Bool

/-- `DeFiLlamaService.get_stablecoin_prices`.  `raw` is the outcome of the
upstream HTTP call inside `_fetch_from_api` (`Except.error` models a timeout,
HTTP error or any other exception); on success the body is parsed with
`_parse_stablecoins`, which never raises.  The surrounding `try` turns a
fetch failure into the stale snapshot when one exists and into `[]`
otherwise, so the function itself never raises. -/
def get_stablecoin_prices (s : CacheState) (ttl now : ℚ) (nowIso : String)
    (raw : Except String JValue) : PricesOutcome :=
  if is_cache_valid s now ttl then
    { result := (s.cache.map CacheEntry.stablecoins).getD []
      state := s
      fetchAttempted := false }
  else
    match raw with
    | Except.ok data =>
      let stablecoins := parse_stablecoins nowIso data
      { result := stablecoins
        state := update_cache stablecoins nowIso now
        fetchAttempted := true }
    | Except.error _ =>
      match s.cache with
      | some c => { result := c.stablecoins, state := s, fetchAttempted := true }
      | none => { result := [], state := s, fetchAttempted := true }

/-! ## Validators (`utils/validators.py`) -/

/-- Hexadecimal digit test for the address/hash validators.  (Python's
`int(x, 16)` additionally tolerates sign characters, underscores between
digits and surrounding whitespace; no claim depends on those inputs, so the
embedding requires plain hex digits.) -/
def isHexChar (c : Char) : Bool :=
  c.isDigit || ('a' ≤ c && c ≤ 'f') || ('A' ≤ c && c ≤ 'F')

/-- `is_valid_ethereum_address`: non-empty, `0x`-prefixed, 42 characters,
hex. -/
def is_valid_ethereum_address (address : String) : Bool :=
  address ≠ "" && leadsWith ("0x".data) address.data && address.length = 42 &&
    (address.data.drop 2).all isHexChar

/-- `is_valid_amount` with the default bounds `[0.01, 1_000_000]`
(`mkRat 1 100` is the lower bound 0.01). -/
def is_valid_amount (amount : ℚ) : Bool :=
  ¬ (amount < mkRat 1 100 || 1000000 < amount)

/-- `is_valid_stablecoin` with the default list. -/
def is_valid_stablecoin (stablecoin : String) : Bool :=
  pyUpper stablecoin ∈ targetStablecoins

/-! ## Configuration (`config.py`)

`payment_service.py` line 229 reads `settings.MIN_CONFIRMATIONS`; `config.py`
declares no such field (the intended value is `REQUIRED_CONFIRMATIONS = 12`
in `utils/constants.py`), so the embedding carries the threshold as an
explicit configuration field and the theorems quantify over it. -/

structure Settings where
  USDC_ADDRESS : String := "0x06eFdBFf2a14a7c8E15944D1F4A48F9F95F663A4"
  USDT_ADDRESS : String := "0xf55BEC9cafDbE8730f096Aa55dad6D22d44099Df"
  DAI_ADDRESS : String := "0xcA77eB3fEFe3725Dc33bccB54eDEFc3D9f764f97"
  MIN_CONFIRMATIONS : Nat := 12

/-! ## The payment data model (`PaymentService`) -/

/-- The payment dict built by `create_payment` and mutated by the other
operations. -/
structure PaymentData where
  payment_id : String
  tx_hash : Option String
  recipient : String
  amount : ℚ
  stablecoin : String
  token_address : String
  status : String
  description : String
  created_at : String
  completed_at : Option String
  confirmations : Nat
  block_number : Option Int
  error : Option String
deriving DecidableEq

/-- Python truthiness of an optional string (`if payment_id:`,
`if payment.get("tx_hash"):`). -/
def truthyStr : Option String → Bool
  | none => false
  | some s => s ≠ ""

/-- Association-list lookup with Python `dict.get` semantics. -/
def alGet {α : Type} (m : List (String × α)) (k : String) : Option α :=
  (m.find? (fun kv => kv.1 = k)).map (fun kv => kv.2)

/-- Association-list assignment with Python dict semantics: an existing key
is updated in place (its position is kept), a new key is appended. -/
def alSet {α : Type} (m : List (String × α)) (k : String) (v : α) :
    List (String × α) :=
  if (m.find? (fun kv => kv.1 = k)).isSome then
    m.map (fun kv => if kv.1 = k then (k, v) else kv)
  else m ++ [(k, v)]

/-- The mutable state of `PaymentService`: `payments_cache` and the reverse
index `tx_hash_to_payment`. -/
structure PaymentState where
  payments_cache : List (String × PaymentData)
  tx_hash_to_payment : List (String × String)

/-- The state after `__init__`. -/
def initialPaymentState : PaymentState :=
  { payments_cache := [], tx_hash_to_payment := [] }

/-! ## The blockchain gateway (`BlockchainService.get_transaction_status`) -/

/-- The fields of a web3 transaction receipt read by
`get_transaction_status`. -/
structure TxReceipt where
  status : Nat
  blockNumber : Int
deriving DecidableEq

/-- The oracle for one `get_transaction_status` call: either the RPC lookup
succeeds — yielding an optional receipt and the current block number used by
`_get_confirmations` (`none` models the inner exception there, which yields
0 confirmations) — or it raises. -/
inductive GatewayResult where
  | ok : Option TxReceipt → Option Int → GatewayResult
  | exn : String → GatewayResult

/-- The dict returned by `get_transaction_status`, restricted to the keys
`get_payment_status` reads (`status`, `confirmations`, `block_number`).  The
error dict of the `except` branch carries no `block_number` key, so
`tx_status.get("block_number")` yields `None` there. -/
structure TxStatusDict where
  status : String
  confirmations : Nat
  block_number : Option Int
deriving DecidableEq

/-- `BlockchainService.get_transaction_status`: a missing receipt reports
`pending`, a mined receipt reports `success`/`failed` with
`max(0, current_block - block_number)` confirmations, and any exception is
swallowed into a `status: "error"` dict with 0 confirmations. -/
def get_transaction_status (g : GatewayResult) : TxStatusDict :=
  match g with
  | GatewayResult.exn _ =>
    { status := "error", confirmations := 0, block_number := none }
  | GatewayResult.ok none _ =>
    { status := "pending", confirmations := 0, block_number := none }
  | GatewayResult.ok (some receipt) currentBlock =>
    { status := if receipt.status = 1 then "success" else "failed"
      confirmations :=
        match currentBlock with
        | none => 0
        | some current => (max 0 (current - receipt.blockNumber)).toNat
      block_number := some receipt.blockNumber }

/-! ## PaymentService operations -/

/-- `PaymentService._get_token_address`: the static symbol → address map. -/
def get_token_address (cfg : Settings) (stablecoin : String) : Option String :=
  if pyUpper stablecoin = "USDC" then some cfg.USDC_ADDRESS
  else if pyUpper stablecoin = "USDT" then some cfg.USDT_ADDRESS
  else if pyUpper stablecoin = "DAI" then some cfg.DAI_ADDRESS
  else none

/-- `PaymentService.create_payment`.  `tokenAllowed` is the result of
`_verify_token_allowed` (which never raises: gateway errors and a missing
service both yield `False`); `paymentId` is the generated uuid and `now` the
creation timestamp. -/
def create_payment (cfg : Settings) (st : PaymentState)
    (recipient_address : String) (amount : ℚ) (stablecoin description : String)
    (tokenAllowed : Bool) (paymentId now : String) :
    Except String PaymentData × PaymentState :=
  if ¬ is_valid_ethereum_address recipient_address then
    (Except.error ("Invalid recipient address: " ++ recipient_address), st)
  else if ¬ is_valid_amount amount then
    (Except.error "Invalid amount. Must be between 0.01 and 1,000,000", st)
  else if ¬ is_valid_stablecoin stablecoin then
    (Except.error ("Invalid stablecoin: " ++ stablecoin), st)
  else
    match get_token_address cfg stablecoin with
    | none =>
      (Except.error ("Token address not configured for " ++ stablecoin), st)
    | some token_address =>
      if token_address = "" then
        (Except.error ("Token address not configured for " ++ stablecoin), st)
      else if ¬ tokenAllowed then
        (Except.error ("Token " ++ stablecoin ++ " is not allowed in payment contract"),
         st)
      else
        let payment_data : PaymentData :=
          { payment_id := paymentId
            tx_hash := none
            recipient := recipient_address
            amount := amount
            stablecoin := stablecoin
            token_address := token_address
            status := "pending"
            description := description
            created_at := now
            completed_at := none
            confirmations := 0
            block_number := none
            error := none }
        (Except.ok payment_data,
         { st with payments_cache := alSet st.payments_cache paymentId payment_data })

/-- `PaymentService.send_payment_transaction`.  `txResult` is the outcome of
`_send_blockchain_transaction`: the produced transaction hash, or the message
of the exception it raised.  On success the hash and the `submitted` status
are written unconditionally (there is no check of the current status or of a
previously set hash); on failure the record is marked `failed` with the
error message and the exception is re-raised. -/
def send_payment_transaction (st : PaymentState) (payment_id : String)
    (txResult : Except String String) :
    Except String PaymentData × PaymentState :=
  match alGet st.payments_cache payment_id with
  | none => (Except.error ("Payment not found: " ++ payment_id), st)
  | some payment =>
    match txResult with
    | Except.ok tx_hash =>
      let updated := { payment with tx_hash := some tx_hash, status := "submitted" }
      (Except.ok updated,
       { payments_cache := alSet st.payments_cache payment_id updated
         tx_hash_to_payment := alSet st.tx_hash_to_payment tx_hash payment_id })
    | Except.error e =>
      let updated := { payment with status := "failed", error := some e }
      (Except.error e,
       { st with payments_cache := alSet st.payments_cache payment_id updated })

/-- The key-resolution prelude of `get_payment_status` (source lines
202-213): a truthy `payment_id` wins, otherwise a truthy `tx_hash` is
resolved through the reverse index (a stale index entry would make the
source crash on `payment.get`, re-raised as an exception), otherwise the
call is a `ValueError`. -/
def resolvePayment (st : PaymentState) (payment_id tx_hash : Option String) :
    Except String (String × PaymentData) :=
  if truthyStr payment_id then
    match payment_id with
    | some pid =>
      match alGet st.payments_cache pid with
      | none => Except.error ("Payment not found: " ++ pid)
      | some payment => Except.ok (pid, payment)
    | none => Except.error "unreachable"
  else if truthyStr tx_hash then
    match tx_hash with
    | some h =>
      match alGet st.tx_hash_to_payment h with
      | none => Except.error ("No payment found for tx_hash: " ++ h)
      | some pid =>
        match alGet st.payments_cache pid with
        | none => Except.error "AttributeError: NoneType has no attribute get"
        | some payment => Except.ok (pid, payment)
    | none => Except.error "unreachable"
  else Except.error "Must provide either payment_id or tx_hash"

/-- The refresh body of `get_payment_status` (source lines 217-231): status,
confirmations and block number are overwritten from the gateway report, then
the confirmation threshold alone decides the `success` override (the
reported on-chain status is not consulted there). -/
def refreshedRecord (cfg : Settings) (payment : PaymentData) (g : GatewayResult)
    (now : String) : PaymentData :=
  let tx_status := get_transaction_status g
  let refreshed :=
    { payment with
        status := tx_status.status
        confirmations := tx_status.confirmations
        block_number := tx_status.block_number }
  if cfg.MIN_CONFIRMATIONS ≤ refreshed.confirmations then
    { refreshed with status := "success", completed_at := some now }
  else refreshed

/-- `PaymentService.get_payment_status`: resolve the record, and when it has
a truthy `tx_hash` consult the gateway and store the refreshed record. -/
def get_payment_status (cfg : Settings) (st : PaymentState)
    (payment_id tx_hash : Option String) (g : GatewayResult) (now : String) :
    Except String PaymentData × PaymentState :=
  match resolvePayment st payment_id tx_hash with
  | Except.error e => (Except.error e, st)
  | Except.ok (pid, payment) =>
    if truthyStr payment.tx_hash then
      let final := refreshedRecord cfg payment g now
      (Except.ok final,
       { st with payments_cache := alSet st.payments_cache pid final })
    else (Except.ok payment, st)

/-- `PaymentService.get_payments_by_status`: the recognized filter values are
exactly `["pending", "submitted", "success", "failed"]`. -/
def get_payments_by_status (st : PaymentState) (status : String) :
    Except String (List PaymentData) :=
  if status ∈ ["pending", "submitted", "success", "failed"] then
    Except.ok ((st.payments_cache.map (fun kv => kv.2)).filter
      (fun p => p.status = status))
  else Except.error ("Invalid status: " ++ status)

/-- `PaymentService.cancel_payment`: allowed only from `pending` or
`failed`; sets the status and nothing else. -/
def cancel_payment (st : PaymentState) (payment_id : String) :
    Except String PaymentData × PaymentState :=
  match alGet st.payments_cache payment_id with
  | none => (Except.error ("Payment not found: " ++ payment_id), st)
  | some payment =>
    if payment.status ∈ ["pending", "failed"] then
      let updated := { payment with status := "cancelled" }
      (Except.ok updated,
       { st with payments_cache := alSet st.payments_cache payment_id updated })
    else
      (Except.error ("Cannot cancel payment with status: " ++ payment.status), st)

/-- The dict returned by `get_payment_statistics`. -/
structure PaymentStats where
  total_payments : Nat
  pending : Nat
  submitted : Nat
  success : Nat
  failed : Nat
  cancelled : Nat
  total_amount : ℚ
  successful_amount : ℚ
deriving DecidableEq

/-- `PaymentService.get_payment_statistics`: pure aggregation over
`payments_cache.values()`. -/
def get_payment_statistics (st : PaymentState) : PaymentStats :=
  let all_payments := st.payments_cache.map (fun kv => kv.2)
  { total_payments := all_payments.length
    pending := (all_payments.filter (fun p => p.status = "pending")).length
    submitted := (all_payments.filter (fun p => p.status = "submitted")).length
    success := (all_payments.filter (fun p => p.status = "success")).length
    failed := (all_payments.filter (fun p => p.status = "failed")).length
    cancelled := (all_payments.filter (fun p => p.status = "cancelled")).length
    total_amount := (all_payments.map (fun p => p.amount)).sum
    successful_amount :=
      ((all_payments.filter (fun p => p.status = "success")).map
        (fun p => p.amount)).sum }

/-! ## Operation sequences and reachable states -/

/-- One `PaymentService` call together with its oracle data. -/
inductive Op where
  | create : String → ℚ → String → String → Bool → String → String → Op
  | send : String → Except String String → Op
  | getStatus : Option String → Option String → GatewayResult → String → Op
  | cancel : String → Op

/-- The state transition performed by one call (the result value is
discarded; failed validations leave the state unchanged, but a failed send
does mark the record `failed`). -/
def stepOp (cfg : Settings) (st : PaymentState) : Op → PaymentState
  | Op.create recipient amount stablecoin description tokenAllowed pid now =>
    (create_payment cfg st recipient amount stablecoin description tokenAllowed
      pid now).2
  | Op.send pid txResult => (send_payment_transaction st pid txResult).2
  | Op.getStatus pid txh g now => (get_payment_status cfg st pid txh g now).2
  | Op.cancel pid => (cancel_payment st pid).2

/-- The state reached from a fresh service by a sequence of calls. -/
def runOps (cfg : Settings) (ops : List Op) : PaymentState :=
  ops.foldl (stepOp cfg) initialPaymentState

/-! ## Shared concrete inputs for witnesses and counterexamples -/

/-- The default configuration, with the intended confirmation threshold
`REQUIRED_CONFIRMATIONS = 12` from `utils/constants.py`. -/
def defaultCfg : Settings := {}

/-- A well-formed recipient address. -/
def addrA : String := "0xaaaaaaaaaaaaaaaaaaaaaaaaaaaaaaaaaaaaaaaa"

/-- A well-formed transaction hash. -/
def txA : String :=
  "0xaaaaaaaaaaaaaaaaaaaaaaaaaaaaaaaaaaaaaaaaaaaaaaaaaaaaaaaaaaaaaaaa"

/-- A second, distinct well-formed transaction hash. -/
def txB : String :=
  "0xbbbbbbbbbbbbbbbbbbbbbbbbbbbbbbbbbbbbbbbbbbbbbbbbbbbbbbbbbbbbbbbb"

/-- Create one valid pending payment `p1`. -/
def opsCreate : List Op := [Op.create addrA 100 "USDC" "" true "p1" "t0"]

/-- Create `p1` and submit it with hash `txA`. -/
def opsCreateSend : List Op := opsCreate ++ [Op.send "p1" (Except.ok txA)]

/-- The state after `opsCreateSend`. -/
def stSubmitted : PaymentState := runOps defaultCfg opsCreateSend

/-- The record stored under `p1` in `stSubmitted`. -/
def pdSubmitted : PaymentData :=
  { payment_id := "p1", tx_hash := some txA, recipient := addrA, amount := 100,
    stablecoin := "USDC", token_address := defaultCfg.USDC_ADDRESS,
    status := "submitted", description := "", created_at := "t0",
    completed_at := none, confirmations := 0, block_number := none,
    error := none }

/-- A gateway report for a mined-but-reverted transaction with 12
confirmations: receipt status 0, block 100, current block 112. -/
def gwFailedMined : GatewayResult :=
  GatewayResult.ok (some { status := 0, blockNumber := 100 }) (some 112)

/-- Create and submit `p1`, then refresh while the gateway raises. -/
def opsErrored : List Op :=
  opsCreateSend
    ++ [Op.getStatus (some "p1") none (GatewayResult.exn "Connection refused") "t1"]

/-- Create and submit `p1`, then refresh with a successful mined receipt and
12 confirmations, reaching status `success`. -/
def opsSucceeded : List Op :=
  opsCreateSend
    ++ [Op.getStatus (some "p1") none
          (GatewayResult.ok (some { status := 1, blockNumber := 100 }) (some 112))
          "t1"]

/-! ## Helper lemmas about the normalizer -/

theorem posNumProbe_pos {v : Option JValue} {p : ℚ}
    (h : posNumProbe v = some p) : 0 < p := by
  unfold posNumProbe at h
  repeat' split at h
  all_goals simp_all

theorem chainBalancesPrice_pos :
    ∀ {kvs : List (String × JValue)} {p : ℚ},
      chainBalancesPrice kvs = some p → 0 < p := by
  intro kvs
  induction kvs with
  | nil => intro p h; simp [chainBalancesPrice] at h
  | cons kv rest ih =>
    intro p h
    unfold chainBalancesPrice at h
    split at h
    · split at h
      · injection h with h
        subst h
        exact posNumProbe_pos (by assumption)
      · exact ih h
    · exact ih h

theorem extractPriceTail_pos {item : JValue} {p : ℚ}
    (h : extractPriceTail item = some p) : 0 < p := by
  unfold extractPriceTail at h
  cases hmd : jget item "marketData" with
  | none => rw [hmd] at h; exact posNumProbe_pos h
  | some v =>
    rw [hmd] at h
    cases v with
    | null => dsimp only at h; simp at h
    | bool b => dsimp only at h; simp at h
    | num q => dsimp only at h; simp at h
    | str s =>
      dsimp only at h
      by_cases hsub : containsSub ("priceUSD".data) s.data = true
      · rw [if_pos hsub] at h; simp at h
      · rw [if_neg hsub] at h
        exact posNumProbe_pos h
    | arr xs =>
      dsimp only at h
      by_cases hmem : xs.any (fun x => pyEqAtom x (JValue.str "priceUSD")) = true
      · rw [if_pos hmem] at h; simp at h
      · rw [if_neg hmem] at h
        exact posNumProbe_pos h
    | obj kvs =>
      dsimp only at h
      cases hpu : jget (JValue.obj kvs) "priceUSD" with
      | none => rw [hpu] at h; exact posNumProbe_pos h
      | some w =>
        rw [hpu] at h
        dsimp only at h
        cases hp : posNumProbe (some w) with
        | none => rw [hp] at h; exact posNumProbe_pos h
        | some q =>
          rw [hp] at h
          injection h with h
          subst h
          exact posNumProbe_pos hp

theorem extract_price_pos {item : JValue} {p : ℚ}
    (h : extract_price item = some p) : 0 < p := by
  unfold extract_price at h
  cases hd : posNumProbe (jget item "price") with
  | some q =>
    rw [hd] at h
    injection h with h
    subst h
    exact posNumProbe_pos hd
  | none =>
    rw [hd] at h
    cases hcb : jget item "chainBalances" with
    | none => rw [hcb] at h; exact extractPriceTail_pos h
    | some v =>
      rw [hcb] at h
      cases v with
      | null => dsimp only at h; simp at h
      | bool b => dsimp only at h; simp at h
      | num q => dsimp only at h; simp at h
      | str s => dsimp only at h; simp at h
      | arr xs => dsimp only at h; simp at h
      | obj kvs =>
        dsimp only at h
        cases hch : chainBalancesPrice kvs with
        | none => rw [hch] at h; exact extractPriceTail_pos h
        | some q =>
          rw [hch] at h
          injection h with h
          subst h
          exact chainBalancesPrice_pos hch

/-- The raw upstream entry of spec scenario D. -/
def scenarioD : JValue :=
  JValue.obj [("symbol", JValue.str "usdc"), ("price", JValue.num 1),
    ("marketCap", JValue.num 33000000000)]

/-! ## Claims about the price cache and the normalizer -/

/-- C6: if the upstream fetch attempted by `get_stablecoin_prices` fails,
the call returns the quotes of the previous snapshot when one exists (even
expired — validity is not consulted on this path), returns `[]` when none
exists, and leaves the cache state unchanged; the embedding is a total
function, mirroring the source's catch-all handler, so the error is never
propagated to the caller. -/
theorem C6_stale_fallback (s : CacheState) (ttl now : ℚ) (nowIso e : String) :
    (get_stablecoin_prices s ttl now nowIso (Except.error e)).result
        = (match s.cache with
           | some c => c.stablecoins
           | none => []) ∧
      (get_stablecoin_prices s ttl now nowIso (Except.error e)).state = s := by
  unfold get_stablecoin_prices
  by_cases hv : is_cache_valid s now ttl
  · have hc : ∃ c, s.cache = some c := by
      unfold is_cache_valid at hv
      cases h : s.cache with
      | none => rw [h] at hv; simp at hv
      | some c => exact ⟨c, rfl⟩
    obtain ⟨c, hc⟩ := hc
    simp [hv, hc]
  · cases hc : s.cache with
    | none => simp [hv, hc]
    | some c => simp [hv, hc]

/-- C7: a `get_stablecoin_prices` call made while the snapshot's age is
strictly below the TTL returns the cached quotes unchanged, leaves the state
unchanged, and attempts no upstream fetch, whatever the network would have
answered. -/
theorem C7_cache_hit (s : CacheState) (c : CacheEntry) (ts ttl now : ℚ)
    (nowIso : String) (raw : Except String JValue)
    (hc : s.cache = some c) (hts : s.cache_timestamp = some ts)
    (hfresh : now - ts < ttl) :
    (get_stablecoin_prices s ttl now nowIso raw).result = c.stablecoins ∧
      (get_stablecoin_prices s ttl now nowIso raw).state = s ∧
      (get_stablecoin_prices s ttl now nowIso raw).fetchAttempted = false := by
  have hv : is_cache_valid s now ttl = true := by
    unfold is_cache_valid
    rw [hc, hts]
    simpa using hfresh
  unfold get_stablecoin_prices
  simp [hv, hc]

/-- Witness for C7 at a concrete state: an empty snapshot fetched at time 0,
read at time 10 with TTL 300, while the upstream would have failed. -/
theorem C7_cache_hit_witness :
    ({ cache := some ⟨[], "iso0"⟩, cache_timestamp := some 0 } :
        CacheState).cache = some ⟨[], "iso0"⟩ ∧
      ({ cache := some ⟨[], "iso0"⟩, cache_timestamp := some 0 } :
        CacheState).cache_timestamp = some 0 ∧
      (10 : ℚ) - 0 < 300 ∧
      (get_stablecoin_prices
          { cache := some ⟨[], "iso0"⟩, cache_timestamp := some 0 }
          300 10 "iso10" (Except.error "connection refused")).result = [] ∧
      (get_stablecoin_prices
          { cache := some ⟨[], "iso0"⟩, cache_timestamp := some 0 }
          300 10 "iso10" (Except.error "connection refused")).fetchAttempted
        = false := by
  refine ⟨rfl, rfl, by norm_num, ?_, ?_⟩
  · exact (C7_cache_hit ⟨some ⟨[], "iso0"⟩, some 0⟩ ⟨[], "iso0"⟩ 0 300 10 "iso10"
      (Except.error "connection refused") rfl rfl (by norm_num)).1
  · exact (C7_cache_hit ⟨some ⟨[], "iso0"⟩, some 0⟩ ⟨[], "iso0"⟩ 0 300 10 "iso10"
      (Except.error "connection refused") rfl rfl (by norm_num)).2.2

/-- C9: the normalizer keeps a raw entry exactly when its uppercased symbol
is tracked and a positive numeric price is extractable; a skipped entry never
disturbs the rest of the parse; and the scenario-D entry normalizes to the
expected quote. -/
theorem C9_normalizer :
    (∀ (ft : String) (item : JValue),
        (parseStablecoinItem ft item).isSome
          ↔ (∃ s, symbolOf item = some s ∧ s ∈ targetStablecoins)
              ∧ (extract_price item).isSome) ∧
      (∀ (ft : String) (xs ys : List JValue) (bad : JValue),
        parseStablecoinItem ft bad = none →
          parse_stablecoins ft (JValue.arr (xs ++ bad :: ys))
            = parse_stablecoins ft (JValue.arr xs)
                ++ parse_stablecoins ft (JValue.arr ys)) ∧
      (∀ ft : String,
        parseStablecoinItem ft scenarioD
          = some { name := JValue.str "USDC", symbol := "USDC", price_usd := 1,
                   market_cap := "$33.0B", change_24h := 0,
                   chains := [JValue.str "scroll"], last_updated := ft }) := by
  refine ⟨?_, ?_, ?_⟩
  · intro ft item
    constructor
    · intro h
      unfold parseStablecoinItem at h
      cases hs : symbolOf item with
      | none => rw [hs] at h; simp at h
      | some s =>
        rw [hs] at h
        by_cases hmem : s ∈ targetStablecoins
        · refine ⟨⟨s, rfl, hmem⟩, ?_⟩
          simp only [hmem, if_true] at h
          cases hp : extract_price item with
          | none => rw [hp] at h; simp at h
          | some p => simp
        · simp [hmem] at h
    · rintro ⟨⟨s, hs, hmem⟩, hp⟩
      cases hpe : extract_price item with
      | none => rw [hpe] at hp; simp at hp
      | some p =>
        unfold parseStablecoinItem
        rw [hs]
        simp only [hmem, if_true, hpe]
        simp [extract_price_pos hpe]
  · intro ft xs ys bad hbad
    simp [parse_stablecoins, List.filterMap_append, List.filterMap_cons, hbad]
  · intro ft
    have hfmt : format_number 33000000000 = "$33.0B" := by
      unfold format_number
      rw [if_pos (by norm_num)]
      have h1 : (33000000000 : ℚ) / 1000000000 = 33 := by norm_num
      rw [h1]
      unfold fmtFixed1
      have h2 : roundHalfEven ((33 : ℚ) * 10) = 330 := by
        have h3 : (33 : ℚ) * 10 = 330 := by norm_num
        rw [h3]
        unfold roundHalfEven
        norm_num
      rw [h2]
      rfl
    calc parseStablecoinItem ft scenarioD
        = some { name := JValue.str "USDC", symbol := "USDC", price_usd := 1,
                 market_cap := format_number 33000000000, change_24h := 0,
                 chains := [JValue.str "scroll"], last_updated := ft } := rfl
      _ = some { name := JValue.str "USDC", symbol := "USDC", price_usd := 1,
                 market_cap := "$33.0B", change_24h := 0,
                 chains := [JValue.str "scroll"], last_updated := ft } := by
          rw [hfmt]

/-- C8 counterexample: the claim accepts the filter value `cancelled`, but
the source recognizes only `pending`, `submitted`, `success` and `failed`,
so `get_payments_by_status` raises on `cancelled`. -/
theorem C8_counterexample :
    get_payments_by_status initialPaymentState "cancelled"
      = Except.error "Invalid status: cancelled" := by
  rfl

/-- C8 amended: `get_payments_by_status` raises exactly when the filter is
outside `{pending, submitted, success, failed}` — in particular it raises on
`cancelled`, although records do reach that status — and for a recognized
filter it returns exactly the stored records carrying that status. -/
theorem C8_amended (st : PaymentState) (status : String) :
    ((∃ l, get_payments_by_status st status = Except.ok l)
        ↔ status ∈ ["pending", "submitted", "success", "failed"]) ∧
      (∀ l, get_payments_by_status st status = Except.ok l →
        ∀ p, p ∈ l ↔ p ∈ st.payments_cache.map (fun kv => kv.2)
            ∧ p.status = status) := by
  constructor
  · constructor
    · rintro ⟨l, hl⟩
      by_contra hmem
      unfold get_payments_by_status at hl
      simp [hmem] at hl
    · intro hmem
      refine ⟨(st.payments_cache.map (fun kv => kv.2)).filter
        (fun p => p.status = status), ?_⟩
      unfold get_payments_by_status
      simp [hmem]
  · intro l hl p
    unfold get_payments_by_status at hl
    by_cases hmem : status ∈ ["pending", "submitted", "success", "failed"]
    · simp only [hmem, if_true, Except.ok.injEq] at hl
      subst hl
      simp [List.mem_filter]
    · simp [hmem] at hl

/-- Witness for C8 amended, at the empty state and the filter `pending`. -/
theorem C8_amended_witness :
    (∃ l, get_payments_by_status initialPaymentState "pending" = Except.ok l) := by
  exact (C8_amended initialPaymentState "pending").1.2 (by decide)

/-! ## Helper lemmas about the payment operations -/

theorem truthyStr_some {s : String} (h : s ≠ "") : truthyStr (some s) = true := by
  simp [truthyStr, h]

theorem resolvePayment_pid (st : PaymentState) (pid : String)
    (txh : Option String) (p : PaymentData) (hpid : pid ≠ "")
    (hget : alGet st.payments_cache pid = some p) :
    resolvePayment st (some pid) txh = Except.ok (pid, p) := by
  unfold resolvePayment
  rw [if_pos (truthyStr_some hpid)]
  dsimp only
  rw [hget]

theorem resolvePayment_ok_lookup {st : PaymentState} {pidOpt txh : Option String}
    {k : String} {p : PaymentData}
    (h : resolvePayment st pidOpt txh = Except.ok (k, p)) :
    alGet st.payments_cache k = some p := by
  unfold resolvePayment at h
  repeat' split at h
  all_goals simp_all

/-- Behaviour of `get_payment_status` on a record that has a transaction
hash: the stored and returned record is `refreshedRecord`. -/
theorem get_payment_status_refresh (cfg : Settings) (st : PaymentState)
    (pid : String) (p : PaymentData) (g : GatewayResult) (now : String)
    (hpid : pid ≠ "") (hget : alGet st.payments_cache pid = some p)
    (htx : truthyStr p.tx_hash = true) :
    (get_payment_status cfg st (some pid) none g now).1
        = Except.ok (refreshedRecord cfg p g now) ∧
      (get_payment_status cfg st (some pid) none g now).2.payments_cache
        = alSet st.payments_cache pid (refreshedRecord cfg p g now) ∧
      (get_payment_status cfg st (some pid) none g now).2.tx_hash_to_payment
        = st.tx_hash_to_payment := by
  unfold get_payment_status
  rw [resolvePayment_pid st pid none p hpid hget]
  simp [htx]

theorem alGet_mem_forall {α : Type} {P : α → Prop} {m : List (String × α)}
    (hm : ∀ kv ∈ m, P kv.2) {k : String} {v : α}
    (h : alGet m k = some v) : P v := by
  unfold alGet at h
  rcases Option.map_eq_some'.1 h with ⟨kv, hfind, hv⟩
  subst hv
  exact hm kv (List.mem_of_find?_eq_some hfind)

theorem alSet_forall {α : Type} {P : α → Prop} {m : List (String × α)}
    {k : String} {v : α} (hm : ∀ kv ∈ m, P kv.2) (hv : P v) :
    ∀ kv ∈ alSet m k v, P kv.2 := by
  intro kv hkv
  unfold alSet at hkv
  split at hkv
  · rcases List.mem_map.1 hkv with ⟨kv0, hkv0, heq⟩
    by_cases hk : kv0.1 = k
    · rw [if_pos hk] at heq
      rw [← heq]
      exact hv
    · rw [if_neg hk] at heq
      rw [← heq]
      exact hm kv0 hkv0
  · rcases List.mem_append.1 hkv with h1 | h1
    · exact hm kv h1
    · have : kv = (k, v) := by simpa using h1
      rw [this]
      exact hv

theorem find?_update {α : Type} (k : String) (v : α) :
    ∀ (m : List (String × α)), (m.find? (fun kv => kv.1 = k)).isSome = true →
      (m.map (fun kv => if kv.1 = k then (k, v) else kv)).find?
          (fun kv => kv.1 = k) = some (k, v) := by
  intro m
  induction m with
  | nil => intro hc; simp at hc
  | cons kv rest ih =>
    intro hc
    by_cases hk : kv.1 = k
    · simp [List.find?_cons, hk]
    · have hc2 : (rest.find? (fun kv => kv.1 = k)).isSome = true := by
        rw [List.find?_cons_of_neg _ (by simp [hk])] at hc
        exact hc
      simp only [List.map_cons, if_neg hk]
      rw [List.find?_cons_of_neg _ (by simp [hk])]
      exact ih hc2

/-- Reading back the key just written: Python `d[k] = v` followed by
`d.get(k)`. -/
theorem alGet_alSet_self {α : Type} (m : List (String × α)) (k : String)
    (v : α) : alGet (alSet m k v) k = some v := by
  unfold alGet alSet
  by_cases hf : (m.find? (fun kv => kv.1 = k)).isSome = true
  · rw [if_pos hf, find?_update k v m hf]
    rfl
  · rw [if_neg hf]
    have hnone : m.find? (fun kv => kv.1 = k) = none := by
      cases hm : m.find? (fun kv => kv.1 = k) with
      | none => rfl
      | some x => rw [hm] at hf; simp at hf
    rw [List.find?_append, hnone]
    simp

/-! ## The status universe and the reachable-state invariant -/

/-- Every status value a stored record can carry: the five nominal statuses
plus the `error` marker written by a failed gateway lookup. -/
def statusUniverse : List String :=
  ["pending", "submitted", "success", "failed", "cancelled", "error"]

/-- The per-record invariant maintained by every operation. -/
def RecordOK (p : PaymentData) : Prop :=
  p.status ∈ statusUniverse ∧ 0 ≤ p.amount

/-- The state invariant: every stored record is `RecordOK`. -/
def StateOK (st : PaymentState) : Prop :=
  ∀ kv ∈ st.payments_cache, RecordOK kv.2

/-- Number of stored records carrying the gateway-failure status `error`. -/
def errorCount (st : PaymentState) : Nat :=
  ((st.payments_cache.map (fun kv => kv.2)).filter
    (fun p => p.status = "error")).length

theorem get_transaction_status_mem (g : GatewayResult) :
    (get_transaction_status g).status ∈ statusUniverse := by
  cases g with
  | exn m => simp [get_transaction_status, statusUniverse]
  | ok receipt cb =>
    cases receipt with
    | none => simp [get_transaction_status, statusUniverse]
    | some r =>
      by_cases h : r.status = 1 <;>
        simp [get_transaction_status, statusUniverse, h]

theorem is_valid_amount_nonneg {amount : ℚ}
    (h : is_valid_amount amount = true) : 0 ≤ amount := by
  unfold is_valid_amount at h
  simp only [decide_eq_true_eq, Bool.or_eq_true, not_or, Bool.not_eq_true',
    decide_eq_false_iff_not] at h
  have h1 : mkRat 1 100 ≤ amount := not_lt.1 h.1
  have h2 : (0 : ℚ) ≤ mkRat 1 100 := by
    rw [Rat.mkRat_eq_div]
    norm_num
  linarith

theorem stepOp_preserves (cfg : Settings) (st : PaymentState) (op : Op)
    (h : StateOK st) : StateOK (stepOp cfg st op) := by
  cases op with
  | create recipient amount stablecoin description tokenAllowed pid now =>
    show StateOK (create_payment cfg st recipient amount stablecoin description
      tokenAllowed pid now).2
    unfold create_payment
    repeat' split
    all_goals try exact h
    intro kv hkv
    refine alSet_forall h ⟨?_, ?_⟩ kv hkv
    · show "pending" ∈ statusUniverse
      decide
    · show (0 : ℚ) ≤ amount
      have hva : is_valid_amount amount = true := by
        by_contra hna
        simp_all
      exact is_valid_amount_nonneg hva
  | send pid txResult =>
    show StateOK (send_payment_transaction st pid txResult).2
    unfold send_payment_transaction
    cases hget : alGet st.payments_cache pid with
    | none => simp only [hget]; exact h
    | some payment =>
      have hp : RecordOK payment := alGet_mem_forall h hget
      cases txResult with
      | ok txh =>
        simp only [hget]
        intro kv hkv
        refine alSet_forall h ⟨?_, ?_⟩ kv hkv
        · show "submitted" ∈ statusUniverse
          decide
        · show (0 : ℚ) ≤ payment.amount
          exact hp.2
      | error e =>
        simp only [hget]
        intro kv hkv
        refine alSet_forall h ⟨?_, ?_⟩ kv hkv
        · show "failed" ∈ statusUniverse
          decide
        · show (0 : ℚ) ≤ payment.amount
          exact hp.2
  | getStatus pidOpt txh g now =>
    show StateOK (get_payment_status cfg st pidOpt txh g now).2
    unfold get_payment_status
    cases hres : resolvePayment st pidOpt txh with
    | error e => simp only [hres]; exact h
    | ok kp =>
      obtain ⟨k, p⟩ := kp
      have hp : RecordOK p := alGet_mem_forall h (resolvePayment_ok_lookup hres)
      simp only [hres]
      by_cases htx : truthyStr p.tx_hash = true
      · simp only [htx, if_true]
        intro kv hkv
        refine alSet_forall h ⟨?_, ?_⟩ kv hkv
        · simp only [refreshedRecord]
          split
          · show "success" ∈ statusUniverse
            decide
          · exact get_transaction_status_mem g
        · simp only [refreshedRecord]
          split
          · exact hp.2
          · exact hp.2
      · simp only [Bool.not_eq_true] at htx
        simp only [htx, Bool.false_eq_true, if_false]
        exact h
  | cancel pid =>
    show StateOK (cancel_payment st pid).2
    unfold cancel_payment
    cases hget : alGet st.payments_cache pid with
    | none => simp only [hget]; exact h
    | some payment =>
      have hp : RecordOK payment := alGet_mem_forall h hget
      simp only [hget]
      by_cases hc : payment.status ∈ ["pending", "failed"]
      · simp only [hc, if_true]
        intro kv hkv
        refine alSet_forall h ⟨?_, ?_⟩ kv hkv
        · show "cancelled" ∈ statusUniverse
          decide
        · show (0 : ℚ) ≤ payment.amount
          exact hp.2
      · simp only [hc, if_false]
        exact h

theorem runOps_ok (cfg : Settings) (ops : List Op) : StateOK (runOps cfg ops) := by
  unfold runOps
  have hgen : ∀ (l : List Op) (st : PaymentState), StateOK st →
      StateOK (l.foldl (stepOp cfg) st) := by
    intro l
    induction l with
    | nil => intro st hst; exact hst
    | cons op rest ih =>
      intro st hst
      exact ih (stepOp cfg st op) (stepOp_preserves cfg st op hst)
  exact hgen ops initialPaymentState (by intro kv hkv; cases hkv)

theorem count_statuses : ∀ (l : List PaymentData),
    (∀ p ∈ l, p.status ∈ statusUniverse) →
    ((l.filter (fun p => p.status = "pending")).length
      + (l.filter (fun p => p.status = "submitted")).length
      + (l.filter (fun p => p.status = "success")).length
      + (l.filter (fun p => p.status = "failed")).length
      + (l.filter (fun p => p.status = "cancelled")).length)
      + (l.filter (fun p => p.status = "error")).length = l.length := by
  intro l
  induction l with
  | nil => intro _; simp
  | cons p rest ih =>
    intro h
    have hp := h p (by simp)
    have ihr := ih (fun q hq => h q (by simp [hq]))
    simp only [statusUniverse, List.mem_cons, List.not_mem_nil, or_false] at hp
    rcases hp with h1 | h1 | h1 | h1 | h1 | h1 <;>
      (simp only [List.filter_cons, h1]; simp; omega)

theorem sum_success_le : ∀ (l : List PaymentData),
    (∀ p ∈ l, 0 ≤ p.amount) →
    ((l.filter (fun p => p.status = "success")).map (fun p => p.amount)).sum
      ≤ (l.map (fun p => p.amount)).sum := by
  intro l
  induction l with
  | nil => intro _; simp
  | cons p rest ih =>
    intro h
    have hp := h p (by simp)
    have ihr := ih (fun q hq => h q (by simp [hq]))
    by_cases hs : p.status = "success"
    · have hf : (p :: rest).filter (fun q => q.status = "success")
          = p :: rest.filter (fun q => q.status = "success") := by
        simp [List.filter_cons, hs]
      rw [hf, List.map_cons, List.sum_cons, List.map_cons, List.sum_cons]
      linarith
    · have hf : (p :: rest).filter (fun q => q.status = "success")
          = rest.filter (fun q => q.status = "success") := by
        simp [List.filter_cons, hs]
      rw [hf, List.map_cons, List.sum_cons]
      linarith

/-- C10: the claim fails: the refresh path can store the status `error`
(when the gateway lookup raises), and such records are counted by none of
the five per-status counters, so the counters do not sum to
`total_payments`.  Here: one created, submitted and error-marked record
gives `total_payments = 1` but a counter sum of 0. -/
theorem C10_counterexample :
    (get_payment_statistics (runOps defaultCfg opsErrored)).total_payments = 1 ∧
      (get_payment_statistics (runOps defaultCfg opsErrored)).pending
        + (get_payment_statistics (runOps defaultCfg opsErrored)).submitted
        + (get_payment_statistics (runOps defaultCfg opsErrored)).success
        + (get_payment_statistics (runOps defaultCfg opsErrored)).failed
        + (get_payment_statistics (runOps defaultCfg opsErrored)).cancelled
        = 0 := by
  decide

/-- C10 (amended): for every reachable PaymentService state, the five
per-status counts plus the number of records in the gateway-failure status
`error` sum to `total_payments` (every stored status is one of those six
values), and `successful_amount ≤ total_amount` holds as claimed. -/
theorem C10_statistics_consistency (cfg : Settings) (ops : List Op) :
    ((get_payment_statistics (runOps cfg ops)).pending
      + (get_payment_statistics (runOps cfg ops)).submitted
      + (get_payment_statistics (runOps cfg ops)).success
      + (get_payment_statistics (runOps cfg ops)).failed
      + (get_payment_statistics (runOps cfg ops)).cancelled)
      + errorCount (runOps cfg ops)
      = (get_payment_statistics (runOps cfg ops)).total_payments ∧
    (get_payment_statistics (runOps cfg ops)).successful_amount
      ≤ (get_payment_statistics (runOps cfg ops)).total_amount := by
  have hmem : ∀ p ∈ (runOps cfg ops).payments_cache.map (fun kv => kv.2),
      p.status ∈ statusUniverse ∧ 0 ≤ p.amount := by
    intro p hp
    rcases List.mem_map.1 hp with ⟨kv, hkv, rfl⟩
    exact runOps_ok cfg ops kv hkv
  constructor
  · exact count_statuses _ (fun p hp => (hmem p hp).1)
  · exact sum_success_le _ (fun p hp => (hmem p hp).2)

/-! ## Claims about the payment lifecycle -/

/-- C1 counterexample: the gateway reports the transaction as `failed`
(mined revert) with 12 confirmations; the refresh nevertheless marks the
stored record `success`, because the success override tests only the
confirmation count, never the reported on-chain status. -/
theorem C1_counterexample :
    (get_transaction_status gwFailedMined).status = "failed" ∧
      12 ≤ (get_transaction_status gwFailedMined).confirmations ∧
      (alGet (get_payment_status defaultCfg stSubmitted (some "p1") none
            gwFailedMined "t1").2.payments_cache "p1").map PaymentData.status
        = some "success" := by
  decide

/-- C1 (amended): for a stored record with a transaction hash, the refresh
inside `get_payment_status` stores `success` whenever the gateway-reported
confirmations reach the threshold, regardless of the gateway-reported
on-chain status, and otherwise stores the reported status verbatim.  In
particular a reverted transaction with enough confirmations is marked
`success`. -/
theorem C1_refresh_success_threshold (cfg : Settings) (st : PaymentState)
    (pid : String) (p : PaymentData) (g : GatewayResult) (now : String)
    (hpid : pid ≠ "") (hget : alGet st.payments_cache pid = some p)
    (htx : truthyStr p.tx_hash = true) :
    (get_payment_status cfg st (some pid) none g now).1.toOption.map
        PaymentData.status
      = some (if cfg.MIN_CONFIRMATIONS ≤ (get_transaction_status g).confirmations
              then "success"
              else (get_transaction_status g).status) := by
  rw [(get_payment_status_refresh cfg st pid p g now hpid hget htx).1]
  by_cases hc : cfg.MIN_CONFIRMATIONS ≤ (get_transaction_status g).confirmations
  · simp [refreshedRecord, hc, Except.toOption]
  · simp [refreshedRecord, hc, Except.toOption]

/-- Witness for the amended C1 at the submitted record `p1` and the
reverted-with-12-confirmations gateway report. -/
theorem C1_refresh_success_threshold_witness :
    ("p1" : String) ≠ "" ∧
      alGet stSubmitted.payments_cache "p1" = some pdSubmitted ∧
      truthyStr pdSubmitted.tx_hash = true ∧
      (get_payment_status defaultCfg stSubmitted (some "p1") none gwFailedMined
          "t1").1.toOption.map PaymentData.status
        = some (if defaultCfg.MIN_CONFIRMATIONS
                  ≤ (get_transaction_status gwFailedMined).confirmations
                then "success"
                else (get_transaction_status gwFailedMined).status) :=
  ⟨by decide, by decide, by decide,
   C1_refresh_success_threshold defaultCfg stSubmitted "p1" pdSubmitted
     gwFailedMined "t1" (by decide) (by decide) (by decide)⟩

/-- C2 counterexample: the record is cached in status `submitted`; a
`get_payment_status` call during a gateway outage returns it with status
`error` and 0 confirmations — fields have been modified, so the call does
not return the cached record unchanged (the error itself is indeed not
propagated). -/
theorem C2_counterexample :
    (alGet stSubmitted.payments_cache "p1").map PaymentData.status
        = some "submitted" ∧
      (get_payment_status defaultCfg stSubmitted (some "p1") none
          (GatewayResult.exn "Connection refused") "t1").1.toOption.map
          (fun p => (p.status, p.confirmations))
        = some ("error", 0) := by
  decide

/-- C2 (amended): when the gateway lookup raises during `get_payment_status`,
the error is not propagated (the gateway wrapper swallows it into a fallback
dict), but the record is not returned unchanged: its status becomes `error`,
its confirmations 0 and its block number `none`; all other fields are kept. -/
theorem C2_gateway_error_degrades (cfg : Settings) (st : PaymentState)
    (pid : String) (p : PaymentData) (msg now : String)
    (hpid : pid ≠ "") (hget : alGet st.payments_cache pid = some p)
    (htx : truthyStr p.tx_hash = true)
    (hthr : 0 < cfg.MIN_CONFIRMATIONS) :
    (get_payment_status cfg st (some pid) none (GatewayResult.exn msg) now).1
      = Except.ok { p with status := "error", confirmations := 0, block_number := none } := by
  rw [(get_payment_status_refresh cfg st pid p (GatewayResult.exn msg) now
    hpid hget htx).1]
  have hne : cfg.MIN_CONFIRMATIONS ≠ 0 := Nat.pos_iff_ne_zero.mp hthr
  simp [refreshedRecord, get_transaction_status, hne]

/-- Witness for the amended C2 at the submitted record `p1`. -/
theorem C2_gateway_error_degrades_witness :
    ("p1" : String) ≠ "" ∧
      alGet stSubmitted.payments_cache "p1" = some pdSubmitted ∧
      truthyStr pdSubmitted.tx_hash = true ∧
      0 < defaultCfg.MIN_CONFIRMATIONS ∧
      (get_payment_status defaultCfg stSubmitted (some "p1") none
          (GatewayResult.exn "Connection refused") "t1").1
        = Except.ok { pdSubmitted with status := "error", confirmations := 0, block_number := none } :=
  ⟨by decide, by decide, by decide, by decide,
   C2_gateway_error_degrades defaultCfg stSubmitted "p1" pdSubmitted
     "Connection refused" "t1" (by decide) (by decide) (by decide) (by decide)⟩

/-- C3 counterexample: the record reaches `success` (mined receipt, 12
confirmations); a later refresh during which the gateway knows no receipt
for the hash moves it back to `pending` — a backward transition. -/
theorem C3_counterexample :
    (alGet (runOps defaultCfg opsSucceeded).payments_cache "p1").map
        PaymentData.status = some "success" ∧
      (alGet (runOps defaultCfg (opsSucceeded
            ++ [Op.getStatus (some "p1") none (GatewayResult.ok none none)
                  "t2"])).payments_cache "p1").map PaymentData.status
        = some "pending" := by
  decide

/-- C3 (amended): the refresh inside `get_payment_status` overwrites the
stored status from the gateway report alone, so the state machine does move
backward: whenever the gateway reports no receipt for the hash and the
threshold is positive, the record returns to `pending`, whatever status
(`submitted`, `success`, `cancelled`, ...) it held before. -/
theorem C3_refresh_moves_backward (cfg : Settings) (st : PaymentState)
    (pid : String) (p : PaymentData) (cb : Option Int) (now : String)
    (hpid : pid ≠ "") (hget : alGet st.payments_cache pid = some p)
    (htx : truthyStr p.tx_hash = true) (hthr : 0 < cfg.MIN_CONFIRMATIONS) :
    (get_payment_status cfg st (some pid) none (GatewayResult.ok none cb)
        now).1.toOption.map PaymentData.status
      = some "pending" := by
  rw [(get_payment_status_refresh cfg st pid p (GatewayResult.ok none cb) now
    hpid hget htx).1]
  have hne : cfg.MIN_CONFIRMATIONS ≠ 0 := Nat.pos_iff_ne_zero.mp hthr
  simp [refreshedRecord, get_transaction_status, hne, Except.toOption]

/-- Witness for the amended C3 at the submitted record `p1` and a no-receipt
gateway report. -/
theorem C3_refresh_moves_backward_witness :
    ("p1" : String) ≠ "" ∧
      alGet stSubmitted.payments_cache "p1" = some pdSubmitted ∧
      truthyStr pdSubmitted.tx_hash = true ∧
      0 < defaultCfg.MIN_CONFIRMATIONS ∧
      (get_payment_status defaultCfg stSubmitted (some "p1") none
          (GatewayResult.ok none none) "t1").1.toOption.map PaymentData.status
        = some "pending" :=
  ⟨by decide, by decide, by decide, by decide,
   C3_refresh_moves_backward defaultCfg stSubmitted "p1" pdSubmitted none "t1"
     (by decide) (by decide) (by decide) (by decide)⟩

/-- C4 counterexample: a payment created and then cancelled is stored with
status `cancelled` and `completed_at` still null, violating the claimed
`completedAt` ⟺ terminal-status equivalence. -/
theorem C4_counterexample :
    (alGet (runOps defaultCfg (opsCreate ++ [Op.cancel "p1"])).payments_cache
        "p1").map (fun p => (p.status, p.completed_at))
      = some ("cancelled", none) := by
  decide

/-- C4 (amended): `completed_at` is written only by the refresh branch of
`get_payment_status` when the confirmation threshold is met (together with
the `success` status).  `cancel_payment` and `send_payment_transaction`
never touch `completed_at`, so a record that is cancelled, or marked
`failed` by a send, keeps `completed_at` null unless an earlier refresh set
it. -/
theorem C4_completed_at_only_on_success :
    (∀ (st : PaymentState) (pid : String) (r : PaymentData),
        (cancel_payment st pid).1 = Except.ok r →
          ∃ p, alGet st.payments_cache pid = some p ∧ r.status = "cancelled"
            ∧ r.completed_at = p.completed_at) ∧
      (∀ (st : PaymentState) (pid : String) (tx : Except String String)
          (r : PaymentData),
        (send_payment_transaction st pid tx).1 = Except.ok r →
          ∃ p, alGet st.payments_cache pid = some p
            ∧ r.completed_at = p.completed_at) ∧
      (∀ (st : PaymentState) (pid msg : String) (p : PaymentData),
        alGet st.payments_cache pid = some p →
          (alGet (send_payment_transaction st pid
              (Except.error msg)).2.payments_cache pid).map
              PaymentData.completed_at
            = some p.completed_at) ∧
      (∀ (cfg : Settings) (st : PaymentState) (pid : String) (p : PaymentData)
          (g : GatewayResult) (now : String),
        pid ≠ "" → alGet st.payments_cache pid = some p →
          truthyStr p.tx_hash = true →
          (get_payment_status cfg st (some pid) none g now).1.toOption.map
              PaymentData.completed_at
            = some (if cfg.MIN_CONFIRMATIONS
                      ≤ (get_transaction_status g).confirmations
                    then some now else p.completed_at)) := by
  refine ⟨?_, ?_, ?_, ?_⟩
  · intro st pid r hr
    unfold cancel_payment at hr
    cases hget : alGet st.payments_cache pid with
    | none => rw [hget] at hr; simp at hr
    | some p =>
      rw [hget] at hr
      dsimp only at hr
      by_cases hs : p.status ∈ ["pending", "failed"]
      · rw [if_pos hs] at hr
        injection hr with hr
        exact ⟨p, rfl, by rw [← hr], by rw [← hr]⟩
      · rw [if_neg hs] at hr
        simp at hr
  · intro st pid tx r hr
    unfold send_payment_transaction at hr
    cases hget : alGet st.payments_cache pid with
    | none => rw [hget] at hr; simp at hr
    | some p =>
      rw [hget] at hr
      dsimp only at hr
      cases tx with
      | ok txh =>
        injection hr with hr
        exact ⟨p, rfl, by rw [← hr]⟩
      | error e => simp at hr
  · intro st pid msg p hget
    unfold send_payment_transaction
    rw [hget]
    dsimp only
    rw [alGet_alSet_self]
    rfl
  · intro cfg st pid p g now hpid hget htx
    rw [(get_payment_status_refresh cfg st pid p g now hpid hget htx).1]
    by_cases hc : cfg.MIN_CONFIRMATIONS ≤ (get_transaction_status g).confirmations
    · simp [refreshedRecord, hc, Except.toOption]
    · simp [refreshedRecord, hc, Except.toOption]

/-- C5 counterexample: after a first send records hash `txA`, a repeated
`send_payment_transaction` on the same payment id overwrites the stored
transaction hash with the new `txB`: `tx_hash` is not immutable once set. -/
theorem C5_counterexample :
    (alGet (runOps defaultCfg opsCreateSend).payments_cache "p1").map
        PaymentData.tx_hash = some (some txA) ∧
      (alGet (runOps defaultCfg (opsCreateSend
            ++ [Op.send "p1" (Except.ok txB)])).payments_cache "p1").map
          PaymentData.tx_hash = some (some txB) ∧
      txA ≠ txB := by
  decide

/-- C5 (amended): a successful `send_payment_transaction` overwrites
`tx_hash` unconditionally with the newly obtained hash — there is no check
of the current status or of a previously set hash, so a repeated send
replaces it.  The failure path of send, the refresh inside
`get_payment_status` and `cancel_payment` never change `tx_hash`. -/
theorem C5_tx_hash_overwritten :
    (∀ (st : PaymentState) (pid hsh : String) (r : PaymentData),
        (send_payment_transaction st pid (Except.ok hsh)).1 = Except.ok r →
          r.tx_hash = some hsh) ∧
      (∀ (st : PaymentState) (pid msg : String) (p : PaymentData),
        alGet st.payments_cache pid = some p →
          (alGet (send_payment_transaction st pid
              (Except.error msg)).2.payments_cache pid).map PaymentData.tx_hash
            = some p.tx_hash) ∧
      (∀ (st : PaymentState) (pid : String) (r : PaymentData),
        (cancel_payment st pid).1 = Except.ok r →
          ∃ p, alGet st.payments_cache pid = some p ∧ r.tx_hash = p.tx_hash) ∧
      (∀ (cfg : Settings) (st : PaymentState) (pid : String) (p : PaymentData)
          (g : GatewayResult) (now : String),
        pid ≠ "" → alGet st.payments_cache pid = some p →
          truthyStr p.tx_hash = true →
          (get_payment_status cfg st (some pid) none g now).1.toOption.map
              PaymentData.tx_hash = some p.tx_hash) := by
  refine ⟨?_, ?_, ?_, ?_⟩
  · intro st pid hsh r hr
    unfold send_payment_transaction at hr
    cases hget : alGet st.payments_cache pid with
    | none => rw [hget] at hr; simp at hr
    | some p =>
      rw [hget] at hr
      dsimp only at hr
      injection hr with hr
      rw [← hr]
  · intro st pid msg p hget
    unfold send_payment_transaction
    rw [hget]
    dsimp only
    rw [alGet_alSet_self]
    rfl
  · intro st pid r hr
    unfold cancel_payment at hr
    cases hget : alGet st.payments_cache pid with
    | none => rw [hget] at hr; simp at hr
    | some p =>
      rw [hget] at hr
      dsimp only at hr
      by_cases hs : p.status ∈ ["pending", "failed"]
      · rw [if_pos hs] at hr
        injection hr with hr
        exact ⟨p, rfl, by rw [← hr]⟩
      · rw [if_neg hs] at hr
        simp at hr
  · intro cfg st pid p g now hpid hget htx
    rw [(get_payment_status_refresh cfg st pid p g now hpid hget htx).1]
    by_cases hc : cfg.MIN_CONFIRMATIONS ≤ (get_transaction_status g).confirmations
    · simp [refreshedRecord, hc, Except.toOption]
    · simp [refreshedRecord, hc, Except.toOption]

end Passlabs


